import Mathlib

/-!
# etrace: the `ptrace.c` tracer runtime

A shallow embedding of `src/ptrace.c` (N. Devillard, V. Chudnovsky): the two
gcc `-finstrument-functions` hooks, the shared emission function `gnu_ptrace`,
the one-time initialisation `gnu_ptrace_init` and the `atexit` finaliser
`gnu_ptrace_close`.

The C file keeps three static variables (`__GNU_PTRACE_FILE__`, `first`,
`active`) and talks to the outside world only through libc calls.  The
embedding threads the statics through a `State` record and appends one
`Effect` to a log for every libc call the source performs, in program order.
Everything observable (sink contents, standard error, standard output, number
of probes, ...) is then read off the log.
-/

namespace Ptrace

/-! ## Data model -/

/-- Value of a C stream pointer together with the status of the stream it
designates: the null pointer, a pointer to an open stream, or a pointer
that was already handed to `fclose` (dangling). -/
inductive FilePtr
  | NULL
  | live
  | stale
  deriving DecidableEq, Repr

/-- One libc call made by `ptrace.c`, with the arguments that matter and,
for `stat` and `fopen`, the value the call returned. -/
inductive Effect
  | stat (path : String) (result : Int)
  | fopen (path : String) (mode : String) (result : FilePtr)
  | strerror
  | perror (text : String)
  | printf (text : String)
  | fprintf (f : FilePtr) (text : String)
  | fflush (f : FilePtr)
  | fclose (f : FilePtr)
  | atexit
  | getpid
  deriving DecidableEq, Repr

/-- Build-time and process-wide constants.
`PTRACE_REFERENCE_FUNCTION` is the optional preprocessor symbol of the source
(its stringified name and the address the symbol has once loaded);
`pid` is what `getpid()` returns; `fmtPtr` is the text `%p` produces, which the
C standard leaves to the implementation. -/
structure Config where
  PTRACE_REFERENCE_FUNCTION : Option (String × Nat)
  pid : Int
  fmtPtr : Nat → String

/-- What the file system answers at the moment of one hook call:
whether `stat("TRACE")` returns 0, whether `fopen("TRACE","a")` returns a
stream, and the text of `strerror(errno)` should the open fail. -/
structure Env where
  markerPresent : Bool
  openSucceeds : Bool
  errText : String
  deriving DecidableEq, Repr

/-- The statics of `ptrace.c`, the pending `atexit` registrations of
`gnu_ptrace_close`, and the log of libc calls made so far. -/
structure State where
  TRACE : FilePtr
  first : Int
  active : Int
  atexitList : Nat
  log : List Effect
  deriving DecidableEq, Repr

/-- Which of the two hooks is invoked. -/
inductive Hook
  | enter
  | exit
  deriving DecidableEq, Repr

/-- One invocation of a hook by the instrumented program. -/
structure Call where
  hook : Hook
  this_fn : Nat
  call_site : Nat
  env : Env
  deriving DecidableEq, Repr

/-! ## Constants of the source -/

def PTRACE_PIPENAME : String := "TRACE"
def REFERENCE_OFFSET : String := "REFERENCE:"
def FUNCTION_ENTRY : String := "enter"
def FUNCTION_EXIT : String := "exit"
def END_TRACE : String := "EXIT"

/-- Statics at program start: `__GNU_PTRACE_FILE__` is zero-initialised,
`first = 1`, `active = 1`; nothing registered, nothing done. -/
def State.init : State :=
  { TRACE := .NULL, first := 1, active := 1, atexitList := 0, log := [] }

/-- Append libc calls to the log. -/
def State.emit (s : State) (es : List Effect) : State :=
  { s with log := s.log ++ es }

/-- Status of a stream pointer after `fclose` was called on it. -/
def FilePtr.closed : FilePtr → FilePtr
  | .NULL => .NULL
  | .live => .stale
  | .stale => .stale

/-- What `perror(s)` puts on standard error when `strerror(errno)` is `err`:
the string `s`, a colon and a blank (all three omitted when `s` is empty),
then `err` and a newline. -/
def perrorText (s err : String) : String :=
  if s = "" then err ++ "\n" else s ++ ": " ++ err ++ "\n"

/-! ## The functions of `ptrace.c` -/

/-- Function `gnu_ptrace_close`: writes the `EXIT <pid>` record through `TRACE`
(before any null check), then closes `TRACE` when it is not null. -/
def gnu_ptrace_close (cfg : Config) (s : State) : State :=
  let s1 : State :=
    s.emit [.getpid, .fprintf s.TRACE (END_TRACE ++ " " ++ toString cfg.pid ++ "\n")]
  if s1.TRACE ≠ .NULL then
    { s1.emit [.fclose s1.TRACE] with TRACE := s1.TRACE.closed }
  else
    s1

/-- Function `gnu_ptrace_init`: returns the new value for `active` and the state. -/
def gnu_ptrace_init (cfg : Config) (env : Env) (s : State) : Int × State :=
  let s0 : State := { s with TRACE := .NULL }
  let sta : Int := if env.markerPresent then 0 else -1
  let s1 : State := s0.emit [.stat PTRACE_PIPENAME sta]
  if sta ≠ 0 then
    (0, s1)
  else
    let fp : FilePtr := if env.openSucceeds then .live else .NULL
    let s2 : State := { s1.emit [.fopen PTRACE_PIPENAME "a" fp] with TRACE := fp }
    if s2.TRACE = .NULL then
      (0, s2.emit [.strerror, .perror (perrorText env.errText env.errText),
                   .printf "[gnu_ptrace error]\n"])
    else
      let s3 : State :=
        match cfg.PTRACE_REFERENCE_FUNCTION with
        | some (name, addr) =>
            s2.emit [.fprintf s2.TRACE
              (REFERENCE_OFFSET ++ " " ++ name ++ " " ++ cfg.fmtPtr addr ++ "\n")]
        | none => s2
      let s4 : State := { s3.emit [.atexit] with atexitList := s3.atexitList + 1 }
      (1, s4)

/-- The last two statements of `gnu_ptrace`: `fprintf(TRACE, "%s %p\n", what, p)`
followed by `fflush(TRACE)`. -/
def writeEvent (cfg : Config) (what : String) (p : Nat) (s : State) : State :=
  s.emit [.fprintf s.TRACE (what ++ " " ++ cfg.fmtPtr p ++ "\n"), .fflush s.TRACE]

/-- Function `gnu_ptrace(what, p)`: the function called by every function event. -/
def gnu_ptrace (cfg : Config) (env : Env) (what : String) (p : Nat) (s : State) : State :=
  if s.active = 0 then
    s
  else if s.first ≠ 0 then
    let r := gnu_ptrace_init cfg env s
    let s1 : State := { r.2 with active := r.1, first := 0 }
    if s1.active = 0 then
      s1
    else
      writeEvent cfg what p s1
  else
    writeEvent cfg what p s

/-- Hook `__cyg_profile_func_enter(this_fn, call_site)`: called upon function entry. -/
def __cyg_profile_func_enter (cfg : Config) (env : Env) (this_fn call_site : Nat)
    (s : State) : State :=
  let _ := call_site
  gnu_ptrace cfg env FUNCTION_ENTRY this_fn s

/-- Hook `__cyg_profile_func_exit(this_fn, call_site)`: called upon function exit. -/
def __cyg_profile_func_exit (cfg : Config) (env : Env) (this_fn call_site : Nat)
    (s : State) : State :=
  let _ := call_site
  gnu_ptrace cfg env FUNCTION_EXIT this_fn s

/-! ## Runs -/

/-- Dispatch one hook invocation. -/
def Call.run (cfg : Config) (s : State) (c : Call) : State :=
  match c.hook with
  | .enter => __cyg_profile_func_enter cfg c.env c.this_fn c.call_site s
  | .exit => __cyg_profile_func_exit cfg c.env c.this_fn c.call_site s

/-- A sequence of hook invocations, in order. -/
def runCalls (cfg : Config) (s : State) (cs : List Call) : State :=
  cs.foldl (Call.run cfg) s

/-- Normal process termination: every pending registration of
`gnu_ptrace_close` is called once and removed from the list. -/
def processExit (cfg : Config) (s : State) : State :=
  (gnu_ptrace_close cfg)^[s.atexitList] { s with atexitList := 0 }

/-- A step of a process: a hook invocation, or normal termination running
the registered finalisers (hooks may still follow, from destructors or from
handlers registered earlier). -/
inductive Step
  | call (c : Call)
  | exit
  deriving DecidableEq, Repr

/-- Execute one step. -/
def Step.run (cfg : Config) (s : State) : Step → State
  | .call c => c.run cfg s
  | .exit => processExit cfg s

/-- Execute a sequence of steps. -/
def runSteps (cfg : Config) (s : State) (ss : List Step) : State :=
  ss.foldl (Step.run cfg) s

/-! ## Observations read off the log -/

/-- Lines handed to the open sink, in order. -/
def sinkLines (log : List Effect) : List String :=
  log.filterMap fun e => match e with
    | .fprintf .live t => some t
    | _ => none

/-- Every text passed to `fprintf(TRACE, ...)`, whatever the pointer was. -/
def fprintfTexts (log : List Effect) : List String :=
  log.filterMap fun e => match e with
    | .fprintf _ t => some t
    | _ => none

/-- Lines put on standard error. -/
def stderrLines (log : List Effect) : List String :=
  log.filterMap fun e => match e with
    | .perror t => some t
    | _ => none

/-- Text put on standard output. -/
def stdoutLines (log : List Effect) : List String :=
  log.filterMap fun e => match e with
    | .printf t => some t
    | _ => none

/-- Stream operations applied to a pointer that is null or dangling:
undefined behaviour in C, the only way a hook could fail to return. -/
def streamMisuse (log : List Effect) : List Effect :=
  log.filter fun e => match e with
    | .fprintf f _ => f != .live
    | .fflush f => f != .live
    | .fclose f => f != .live
    | _ => false

/-- Contents of the sink: what has reached the file, and what still sits in
the stream buffer (a buffer that is emptied only by `fflush` or `fclose`). -/
structure Sink where
  flushed : List String
  pending : List String
  deriving DecidableEq, Repr

/-- Effect of one libc call on the sink. -/
def Sink.step (k : Sink) : Effect → Sink
  | .fprintf .live t => { k with pending := k.pending ++ [t] }
  | .fflush .live => { flushed := k.flushed ++ k.pending, pending := [] }
  | .fclose .live => { flushed := k.flushed ++ k.pending, pending := [] }
  | _ => k

/-- Sink after a whole log. -/
def sinkOf (log : List Effect) : Sink :=
  log.foldl Sink.step { flushed := [], pending := [] }

/-- Does the line begin with the `REFERENCE:` tag? -/
def isReferenceLine (t : String) : Bool :=
  REFERENCE_OFFSET.data.isPrefixOf t.data

/-- Text `%p` yields under glibc: `(nil)` for null, else `0x` and lower-case
hexadecimal digits. -/
def glibcPtr (p : Nat) : String :=
  if p = 0 then "(nil)" else "0x" ++ String.mk (Nat.toDigits 16 p)

/-- The `enter`/`exit` line the claim promises for a call. -/
def eventLine (cfg : Config) (c : Call) : String :=
  (match c.hook with
   | .enter => "enter "
   | .exit => "exit ") ++ cfg.fmtPtr c.this_fn ++ "\n"

/-- The Reference Marker line, when a reference function is configured. -/
def referenceLines (cfg : Config) : List String :=
  match cfg.PTRACE_REFERENCE_FUNCTION with
  | some (name, addr) => ["REFERENCE: " ++ name ++ " " ++ cfg.fmtPtr addr ++ "\n"]
  | none => []

/-- The Termination Marker line. -/
def exitLine (cfg : Config) : String :=
  "EXIT " ++ toString cfg.pid ++ "\n"


/-! ## Vocabulary for stating the shape of a run -/

/-- String the hook passes as `what`. -/
def Hook.tag : Hook → String
  | .enter => FUNCTION_ENTRY
  | .exit => FUNCTION_EXIT

/-- Log entries produced by hook calls once initialisation is over:
one `fprintf` and one `fflush` per call, on the pointer `f`. -/
def steadyLog (cfg : Config) (f : FilePtr) : List Call → List Effect
  | [] => []
  | c :: cs => .fprintf f (eventLine cfg c) :: .fflush f :: steadyLog cfg f cs

/-- Log entries of a successful `gnu_ptrace_init`. -/
def initLog (cfg : Config) : List Effect :=
  [.stat "TRACE" 0, .fopen "TRACE" "a" .live]
    ++ (referenceLines cfg).map (Effect.fprintf .live) ++ [.atexit]

/-- Log entries of a `gnu_ptrace_init` whose `fopen` fails. -/
def failLog (env : Env) : List Effect :=
  [.stat "TRACE" 0, .fopen "TRACE" "a" .NULL, .strerror,
   .perror (perrorText env.errText env.errText), .printf "[gnu_ptrace error]\n"]

/-- Log entries of `gnu_ptrace_close` run on an open sink. -/
def closeLog (cfg : Config) : List Effect :=
  [.getpid, .fprintf .live (exitLine cfg), .fclose .live]

/-- State once the marker was found absent. -/
def absentState : State :=
  { TRACE := .NULL, first := 0, active := 0, atexitList := 0, log := [.stat "TRACE" (-1)] }

/-- State once `fopen` failed. -/
def failedState (env : Env) : State :=
  { TRACE := .NULL, first := 0, active := 0, atexitList := 0, log := failLog env }

/-- State while tracing, after the hook calls `cs`. -/
def tracingState (cfg : Config) (cs : List Call) : State :=
  { TRACE := .live, first := 0, active := 1, atexitList := 1,
    log := initLog cfg ++ steadyLog cfg .live cs }

/-- State after the finaliser ran: `pre` are the hook calls before it,
`post` the hook calls after it. -/
def closedState (cfg : Config) (pre post : List Call) : State :=
  { TRACE := .stale, first := 0, active := 1, atexitList := 0,
    log := initLog cfg ++ steadyLog cfg .live pre ++ closeLog cfg
             ++ steadyLog cfg .stale post }

/-- Hook calls of a step sequence. -/
def callsOf : List Step → List Call
  | [] => []
  | .call c :: ss => c :: callsOf ss
  | .exit :: ss => callsOf ss

/-- Hook calls made before the first process exit. -/
def beforeExit : List Step → List Call
  | [] => []
  | .call c :: ss => c :: beforeExit ss
  | .exit :: _ => []

/-- Hook calls made after the first process exit, if there is one. -/
def afterExit : List Step → Option (List Call)
  | [] => none
  | .call _ :: ss => afterExit ss
  | .exit :: ss => some (callsOf ss)

/-- The three activation states of the specification. -/
inductive Activation
  | Unprobed
  | Active
  | Inactive
  deriving DecidableEq, Repr

/-- Activation state encoded by the two statics, read the way `gnu_ptrace`
tests them: `active == 0` first, then `first`. -/
def State.activation (s : State) : Activation :=
  if s.active = 0 then .Inactive
  else if s.first ≠ 0 then .Unprobed
  else .Active

/-- Number of `stat` calls in a log. -/
def countStat (log : List Effect) : Nat :=
  log.countP fun e => match e with
    | .stat _ _ => true
    | _ => false

/-- Number of `fopen` calls in a log. -/
def countFopen (log : List Effect) : Nat :=
  log.countP fun e => match e with
    | .fopen _ _ _ => true
    | _ => false

/-- Number of `atexit` registrations in a log. -/
def countAtexit (log : List Effect) : Nat :=
  log.countP fun e => match e with
    | .atexit => true
    | _ => false

/-- Number of `fprintf` calls whose text begins with `REFERENCE:`. -/
def countReference (log : List Effect) : Nat :=
  (fprintfTexts log).countP isReferenceLine

/-- The four counters that tell how often each part of `gnu_ptrace_init`
ran: marker probe, sink open, Reference Marker write, finaliser registration. -/
def initCounts (log : List Effect) : Nat × Nat × Nat × Nat :=
  (countStat log, countFopen log, countReference log, countAtexit log)

/-- The same hook invocation made in environment `e`. -/
def Call.inEnv (e : Env) (c : Call) : Call :=
  { c with env := e }

/-! ## Concrete inputs used to exercise the theorems -/

/-- Build without a reference function, process 42, glibc pointer format. -/
def demoCfg : Config :=
  { PTRACE_REFERENCE_FUNCTION := none, pid := 42, fmtPtr := glibcPtr }

/-- Build with reference function `main` loaded at 0x401106. -/
def demoCfgRef : Config :=
  { PTRACE_REFERENCE_FUNCTION := some ("main", 0x401106), pid := 42, fmtPtr := glibcPtr }

/-- No file `TRACE` in the working directory. -/
def envAbsent : Env :=
  { markerPresent := false, openSucceeds := false, errText := "No such file or directory" }

/-- File `TRACE` exists but cannot be opened for appending. -/
def envDenied : Env :=
  { markerPresent := true, openSucceeds := false, errText := "Permission denied" }

/-- File `TRACE` exists and can be opened. -/
def envOk : Env :=
  { markerPresent := true, openSucceeds := true, errText := "Success" }

/-- Entry of `f`, loaded at 0x401136 and called from 0x401190, in environment `e`. -/
def enterF (e : Env) : Call :=
  { hook := .enter, this_fn := 0x401136, call_site := 0x401190, env := e }

/-- Exit of `f`. -/
def exitF (e : Env) : Call :=
  { hook := .exit, this_fn := 0x401136, call_site := 0x401190, env := e }

/-- Entry of `g`, loaded at 0x401156 and called from 0x401140, in environment `e`. -/
def enterG (e : Env) : Call :=
  { hook := .enter, this_fn := 0x401156, call_site := 0x401140, env := e }

/-- Exit of `g`. -/
def exitG (e : Env) : Call :=
  { hook := .exit, this_fn := 0x401156, call_site := 0x401140, env := e }

/-! ## Basic facts about one call -/

theorem Call.run_eq (cfg : Config) (s : State) (c : Call) :
    c.run cfg s = gnu_ptrace cfg c.env c.hook.tag c.this_fn s := by
  cases c with
  | mk hook this_fn call_site env =>
    cases hook <;> rfl

theorem tag_line (cfg : Config) (c : Call) :
    c.hook.tag ++ " " ++ cfg.fmtPtr c.this_fn ++ "\n" = eventLine cfg c := by
  cases c with
  | mk hook this_fn call_site env =>
    cases hook <;>
      simp [Hook.tag, eventLine, FUNCTION_ENTRY, FUNCTION_EXIT, String.append_assoc]

theorem Call.run_inactive (cfg : Config) (s : State) (c : Call) (h : s.active = 0) :
    c.run cfg s = s := by
  simp [Call.run_eq, gnu_ptrace, h]

theorem Call.run_steady (cfg : Config) (s : State) (c : Call)
    (ha : s.active ≠ 0) (hf : s.first = 0) :
    c.run cfg s = s.emit [.fprintf s.TRACE (eventLine cfg c), .fflush s.TRACE] := by
  simp [Call.run_eq, gnu_ptrace, ha, hf, writeEvent, tag_line]

/-- First call, marker absent: only the probe happens and tracing is off. -/
theorem first_absent (cfg : Config) (c : Call) (h : c.env.markerPresent = false) :
    c.run cfg State.init = absentState := by
  simp [Call.run_eq, gnu_ptrace, gnu_ptrace_init, State.init, State.emit, h, PTRACE_PIPENAME,
    absentState]

/-- First call, marker present, `fopen` fails. -/
theorem first_openFails (cfg : Config) (c : Call) (h : c.env.markerPresent = true)
    (ho : c.env.openSucceeds = false) :
    c.run cfg State.init = failedState c.env := by
  simp [Call.run_eq, gnu_ptrace, gnu_ptrace_init, State.init, State.emit, h, ho,
    PTRACE_PIPENAME, failLog, failedState]

/-- First call, marker present, `fopen` succeeds. -/
theorem first_opens (cfg : Config) (c : Call) (h : c.env.markerPresent = true)
    (ho : c.env.openSucceeds = true) :
    c.run cfg State.init = tracingState cfg [c] := by
  have ht := tag_line cfg c
  simp only [String.append_assoc] at ht
  cases hr : cfg.PTRACE_REFERENCE_FUNCTION with
  | none =>
    simp [Call.run_eq, gnu_ptrace, gnu_ptrace_init, State.init, State.emit, h, ho,
      PTRACE_PIPENAME, initLog, steadyLog, referenceLines, hr, writeEvent, ht, tracingState,
      String.append_assoc]
  | some r =>
    obtain ⟨name, addr⟩ := r
    simp [Call.run_eq, gnu_ptrace, gnu_ptrace_init, State.init, State.emit, h, ho,
      PTRACE_PIPENAME, initLog, steadyLog, referenceLines, hr, writeEvent, ht, tracingState,
      REFERENCE_OFFSET, String.append_assoc]

/-! ## Shape of a run -/

theorem steadyLog_append (cfg : Config) (f : FilePtr) (as bs : List Call) :
    steadyLog cfg f (as ++ bs) = steadyLog cfg f as ++ steadyLog cfg f bs := by
  induction as with
  | nil => rfl
  | cons a as ih => simp [steadyLog, ih]

theorem Call.run_tracing (cfg : Config) (pre : List Call) (c : Call) :
    c.run cfg (tracingState cfg pre) = tracingState cfg (pre ++ [c]) := by
  rw [Call.run_steady cfg _ c (by simp [tracingState]) (by simp [tracingState])]
  simp [tracingState, State.emit, steadyLog_append, steadyLog]

theorem Call.run_closed (cfg : Config) (pre post : List Call) (c : Call) :
    c.run cfg (closedState cfg pre post) = closedState cfg pre (post ++ [c]) := by
  rw [Call.run_steady cfg _ c (by simp [closedState]) (by simp [closedState])]
  simp [closedState, State.emit, steadyLog_append, steadyLog]

theorem processExit_idle (cfg : Config) (s : State) (h : s.atexitList = 0) :
    processExit cfg s = s := by
  cases s with
  | mk T f a n l =>
    simp only at h
    subst h
    simp [processExit]

theorem processExit_tracing (cfg : Config) (pre : List Call) :
    processExit cfg (tracingState cfg pre) = closedState cfg pre [] := by
  simp [processExit, tracingState, closedState, gnu_ptrace_close, State.emit, closeLog,
    steadyLog, exitLine, END_TRACE, FilePtr.closed, String.append_assoc]

theorem runCalls_inactive (cfg : Config) (s : State) (cs : List Call) (h : s.active = 0) :
    runCalls cfg s cs = s := by
  induction cs with
  | nil => rfl
  | cons c cs ih =>
    simp only [runCalls, List.foldl_cons] at ih ⊢
    rw [Call.run_inactive cfg s c h]
    exact ih

theorem runSteps_inactive (cfg : Config) (s : State) (ss : List Step) (h : s.active = 0)
    (hn : s.atexitList = 0) : runSteps cfg s ss = s := by
  induction ss with
  | nil => rfl
  | cons x ss ih =>
    simp only [runSteps, List.foldl_cons] at ih ⊢
    cases x with
    | call c => simp only [Step.run]; rw [Call.run_inactive cfg s c h]; exact ih
    | exit => simp only [Step.run]; rw [processExit_idle cfg s hn]; exact ih

theorem runCalls_tracing (cfg : Config) (cs : List Call) :
    ∀ pre, runCalls cfg (tracingState cfg pre) cs = tracingState cfg (pre ++ cs) := by
  induction cs with
  | nil => intro pre; simp [runCalls]
  | cons c cs ih =>
    intro pre
    simp only [runCalls, List.foldl_cons] at ih ⊢
    rw [Call.run_tracing, ih]
    simp

theorem runSteps_closed (cfg : Config) (ss : List Step) :
    ∀ pre post, runSteps cfg (closedState cfg pre post) ss
      = closedState cfg pre (post ++ callsOf ss) := by
  induction ss with
  | nil => intro pre post; simp [runSteps, callsOf]
  | cons x ss ih =>
    intro pre post
    simp only [runSteps, List.foldl_cons] at ih ⊢
    cases x with
    | call c => simp only [Step.run]; rw [Call.run_closed, ih]; simp [callsOf]
    | exit =>
      simp only [Step.run]
      rw [processExit_idle cfg _ (by simp [closedState]), ih]
      simp [callsOf]

theorem runSteps_tracing (cfg : Config) (ss : List Step) :
    ∀ pre, runSteps cfg (tracingState cfg pre) ss
      = match afterExit ss with
        | none => tracingState cfg (pre ++ beforeExit ss)
        | some post => closedState cfg (pre ++ beforeExit ss) post := by
  induction ss with
  | nil => intro pre; simp [runSteps, afterExit, beforeExit]
  | cons x ss ih =>
    intro pre
    cases x with
    | call c =>
      have := ih (pre ++ [c])
      simp only [runSteps, List.foldl_cons, Step.run] at this ⊢
      rw [Call.run_tracing, this]
      simp [afterExit, beforeExit]
    | exit =>
      have := runSteps_closed cfg ss pre []
      simp only [runSteps, List.foldl_cons, Step.run] at this ⊢
      rw [processExit_tracing, this]
      simp [afterExit, beforeExit]

/-- Whole run, marker absent at the first call. -/
theorem run_absent (cfg : Config) (c : Call) (ss : List Step)
    (h : c.env.markerPresent = false) :
    runSteps cfg State.init (.call c :: ss) = absentState := by
  have := runSteps_inactive cfg absentState ss rfl rfl
  simp only [runSteps, List.foldl_cons, Step.run] at this ⊢
  rw [first_absent cfg c h, this]

/-- Whole run, `fopen` failing at the first call. -/
theorem run_openFails (cfg : Config) (c : Call) (ss : List Step)
    (h : c.env.markerPresent = true) (ho : c.env.openSucceeds = false) :
    runSteps cfg State.init (.call c :: ss) = failedState c.env := by
  have := runSteps_inactive cfg (failedState c.env) ss rfl rfl
  simp only [runSteps, List.foldl_cons, Step.run] at this ⊢
  rw [first_openFails cfg c h ho, this]

/-- Whole run, sink opened at the first call. -/
theorem run_opens (cfg : Config) (c : Call) (ss : List Step)
    (h : c.env.markerPresent = true) (ho : c.env.openSucceeds = true) :
    runSteps cfg State.init (.call c :: ss)
      = match afterExit ss with
        | none => tracingState cfg (c :: beforeExit ss)
        | some post => closedState cfg (c :: beforeExit ss) post := by
  have := runSteps_tracing cfg ss [c]
  simp only [runSteps, List.foldl_cons, Step.run] at this ⊢
  rw [first_opens cfg c h ho, this]
  simp

/-- Hook calls alone are a step sequence without exit. -/
theorem runSteps_calls (cfg : Config) (cs : List Call) :
    ∀ s, runSteps cfg s (cs.map Step.call) = runCalls cfg s cs := by
  induction cs with
  | nil => intro s; rfl
  | cons c cs ih =>
    intro s
    have := ih (c.run cfg s)
    simp only [runSteps, runCalls, List.map_cons, List.foldl_cons, Step.run] at this ⊢
    exact this

/-! ## Reading the log -/

theorem isReferenceLine_eventLine (cfg : Config) (c : Call) :
    isReferenceLine (eventLine cfg c) = false := by
  cases c with
  | mk hook this_fn call_site env =>
    cases hook <;>
      simp [isReferenceLine, eventLine, REFERENCE_OFFSET, String.data_append, List.isPrefixOf]

theorem isReferenceLine_exitLine (cfg : Config) :
    isReferenceLine (exitLine cfg) = false := by
  simp [isReferenceLine, exitLine, REFERENCE_OFFSET, String.data_append, List.isPrefixOf]

theorem isReferenceLine_referenceLines (cfg : Config) :
    ∀ t ∈ referenceLines cfg, isReferenceLine t = true := by
  intro t ht
  cases hr : cfg.PTRACE_REFERENCE_FUNCTION with
  | none => simp [referenceLines, hr] at ht
  | some r =>
    obtain ⟨name, addr⟩ := r
    simp only [referenceLines, hr, List.mem_singleton] at ht
    subst ht
    simp [isReferenceLine, REFERENCE_OFFSET, String.data_append, List.isPrefixOf]

theorem exitLine_ne_eventLine (cfg : Config) (c : Call) : exitLine cfg ≠ eventLine cfg c := by
  intro h
  have h2 := congrArg (fun t => t.data.head?) h
  cases c with
  | mk hook this_fn call_site env =>
    cases hook <;> simp [exitLine, eventLine, String.data_append] at h2

theorem sinkLines_append (a b : List Effect) :
    sinkLines (a ++ b) = sinkLines a ++ sinkLines b := by
  simp [sinkLines, List.filterMap_append]

theorem fprintfTexts_append (a b : List Effect) :
    fprintfTexts (a ++ b) = fprintfTexts a ++ fprintfTexts b := by
  simp [fprintfTexts, List.filterMap_append]

theorem stderrLines_append (a b : List Effect) :
    stderrLines (a ++ b) = stderrLines a ++ stderrLines b := by
  simp [stderrLines, List.filterMap_append]

theorem stdoutLines_append (a b : List Effect) :
    stdoutLines (a ++ b) = stdoutLines a ++ stdoutLines b := by
  simp [stdoutLines, List.filterMap_append]

theorem streamMisuse_append (a b : List Effect) :
    streamMisuse (a ++ b) = streamMisuse a ++ streamMisuse b := by
  simp [streamMisuse, List.filter_append]

theorem sinkOf_append (a b : List Effect) :
    sinkOf (a ++ b) = b.foldl Sink.step (sinkOf a) := by
  simp [sinkOf, List.foldl_append]

theorem sinkLines_steady_live (cfg : Config) (cs : List Call) :
    sinkLines (steadyLog cfg .live cs) = cs.map (eventLine cfg) := by
  induction cs with
  | nil => rfl
  | cons c cs ih => simpa [steadyLog, sinkLines] using ih

theorem sinkLines_steady_stale (cfg : Config) (cs : List Call) :
    sinkLines (steadyLog cfg .stale cs) = [] := by
  induction cs with
  | nil => rfl
  | cons c cs ih => simpa [steadyLog, sinkLines] using ih

theorem fprintfTexts_steady (cfg : Config) (f : FilePtr) (cs : List Call) :
    fprintfTexts (steadyLog cfg f cs) = cs.map (eventLine cfg) := by
  induction cs with
  | nil => rfl
  | cons c cs ih => simpa [steadyLog, fprintfTexts] using ih

theorem stderrLines_steady (cfg : Config) (f : FilePtr) (cs : List Call) :
    stderrLines (steadyLog cfg f cs) = [] := by
  induction cs with
  | nil => rfl
  | cons c cs ih => simpa [steadyLog, stderrLines] using ih

theorem stdoutLines_steady (cfg : Config) (f : FilePtr) (cs : List Call) :
    stdoutLines (steadyLog cfg f cs) = [] := by
  induction cs with
  | nil => rfl
  | cons c cs ih => simpa [steadyLog, stdoutLines] using ih

theorem streamMisuse_steady_live (cfg : Config) (cs : List Call) :
    streamMisuse (steadyLog cfg .live cs) = [] := by
  induction cs with
  | nil => rfl
  | cons c cs ih => simpa [steadyLog, streamMisuse] using ih

theorem sinkLines_initLog (cfg : Config) : sinkLines (initLog cfg) = referenceLines cfg := by
  cases hr : cfg.PTRACE_REFERENCE_FUNCTION with
  | none => simp [initLog, referenceLines, hr, sinkLines]
  | some r => simp [initLog, referenceLines, hr, sinkLines]

theorem fprintfTexts_initLog (cfg : Config) :
    fprintfTexts (initLog cfg) = referenceLines cfg := by
  cases hr : cfg.PTRACE_REFERENCE_FUNCTION with
  | none => simp [initLog, referenceLines, hr, fprintfTexts]
  | some r => simp [initLog, referenceLines, hr, fprintfTexts]

theorem stderrLines_initLog (cfg : Config) : stderrLines (initLog cfg) = [] := by
  cases hr : cfg.PTRACE_REFERENCE_FUNCTION with
  | none => simp [initLog, referenceLines, hr, stderrLines]
  | some r => simp [initLog, referenceLines, hr, stderrLines]

theorem stdoutLines_initLog (cfg : Config) : stdoutLines (initLog cfg) = [] := by
  cases hr : cfg.PTRACE_REFERENCE_FUNCTION with
  | none => simp [initLog, referenceLines, hr, stdoutLines]
  | some r => simp [initLog, referenceLines, hr, stdoutLines]

theorem streamMisuse_initLog (cfg : Config) : streamMisuse (initLog cfg) = [] := by
  cases hr : cfg.PTRACE_REFERENCE_FUNCTION with
  | none => simp [initLog, referenceLines, hr, streamMisuse]
  | some r => simp [initLog, referenceLines, hr, streamMisuse]

/-! ## The claims -/

/-- C1 (opt-in): when the activation marker is absent at the first hook call,
then whatever hook calls and process exit follow, the stream pointer stays
null, the only libc call ever made is the one failed probe of the marker, so
`fopen` is never called, nothing is written through `fprintf`, the sink is
empty, and nothing goes to standard error or standard output. -/
theorem C1_marker_absent_silent (cfg : Config) (c : Call) (ss : List Step)
    (h : c.env.markerPresent = false) :
    (runSteps cfg State.init (.call c :: ss)).TRACE = .NULL
    ∧ (runSteps cfg State.init (.call c :: ss)).log = [.stat PTRACE_PIPENAME (-1)]
    ∧ countFopen (runSteps cfg State.init (.call c :: ss)).log = 0
    ∧ fprintfTexts (runSteps cfg State.init (.call c :: ss)).log = []
    ∧ sinkOf (runSteps cfg State.init (.call c :: ss)).log = { flushed := [], pending := [] }
    ∧ stderrLines (runSteps cfg State.init (.call c :: ss)).log = []
    ∧ stdoutLines (runSteps cfg State.init (.call c :: ss)).log = [] := by
  rw [run_absent cfg c ss h]
  simp [absentState, PTRACE_PIPENAME, countFopen, fprintfTexts, sinkOf, Sink.step,
    stderrLines, stdoutLines]

/-- Witness for C1: `f` entered and left, then process exit, marker absent. -/
theorem C1_marker_absent_silent_witness :
    (enterF envAbsent).env.markerPresent = false
    ∧ (runSteps demoCfg State.init
        [.call (enterF envAbsent), .call (exitF envOk), .exit]).log = [.stat "TRACE" (-1)] :=
  ⟨rfl, (C1_marker_absent_silent demoCfg (enterF envAbsent)
    [.call (exitF envOk), .exit] rfl).2.1⟩

theorem countStat_append (a b : List Effect) :
    countStat (a ++ b) = countStat a + countStat b := by
  simp [countStat, List.countP_append]

theorem countFopen_append (a b : List Effect) :
    countFopen (a ++ b) = countFopen a + countFopen b := by
  simp [countFopen, List.countP_append]

theorem countAtexit_append (a b : List Effect) :
    countAtexit (a ++ b) = countAtexit a + countAtexit b := by
  simp [countAtexit, List.countP_append]

theorem countReference_append (a b : List Effect) :
    countReference (a ++ b) = countReference a + countReference b := by
  simp [countReference, fprintfTexts_append, List.countP_append]

theorem countStat_steady (cfg : Config) (f : FilePtr) (cs : List Call) :
    countStat (steadyLog cfg f cs) = 0 := by
  induction cs with
  | nil => rfl
  | cons c cs ih => simpa [steadyLog, countStat] using ih

theorem countFopen_steady (cfg : Config) (f : FilePtr) (cs : List Call) :
    countFopen (steadyLog cfg f cs) = 0 := by
  induction cs with
  | nil => rfl
  | cons c cs ih => simpa [steadyLog, countFopen] using ih

theorem countAtexit_steady (cfg : Config) (f : FilePtr) (cs : List Call) :
    countAtexit (steadyLog cfg f cs) = 0 := by
  induction cs with
  | nil => rfl
  | cons c cs ih => simpa [steadyLog, countAtexit] using ih

theorem countReference_steady (cfg : Config) (f : FilePtr) (cs : List Call) :
    countReference (steadyLog cfg f cs) = 0 := by
  simp only [countReference, fprintfTexts_steady, List.countP_eq_zero, List.mem_map]
  rintro t ⟨c, _, rfl⟩
  simp [isReferenceLine_eventLine]

theorem initCounts_steady (cfg : Config) (f : FilePtr) (cs : List Call) :
    initCounts (steadyLog cfg f cs) = (0, 0, 0, 0) := by
  simp [initCounts, countStat_steady, countFopen_steady, countAtexit_steady,
    countReference_steady]

theorem initCounts_closeLog (cfg : Config) : initCounts (closeLog cfg) = (0, 0, 0, 0) := by
  simp [initCounts, closeLog, countStat, countFopen, countAtexit, countReference, fprintfTexts,
    isReferenceLine_exitLine]

theorem initCounts_append (a b : List Effect) (hb : initCounts b = (0, 0, 0, 0)) :
    initCounts (a ++ b) = initCounts a := by
  simp only [initCounts, Prod.mk.injEq] at hb
  simp [initCounts, countStat_append, countFopen_append, countAtexit_append,
    countReference_append, hb.1, hb.2.1, hb.2.2.1, hb.2.2.2]

theorem initCounts_initLog (cfg : Config) :
    initCounts (initLog cfg) = (1, 1, (referenceLines cfg).length, 1) := by
  cases hr : cfg.PTRACE_REFERENCE_FUNCTION with
  | none =>
    simp [initCounts, initLog, referenceLines, hr, countStat, countFopen, countAtexit,
      countReference, fprintfTexts]
  | some r =>
    have := isReferenceLine_referenceLines cfg
    simp only [referenceLines, hr, List.mem_singleton, forall_eq] at this
    simp [initCounts, initLog, referenceLines, hr, countStat, countFopen, countAtexit,
      countReference, fprintfTexts, this]

theorem referenceLines_length_le (cfg : Config) : (referenceLines cfg).length ≤ 1 := by
  cases hr : cfg.PTRACE_REFERENCE_FUNCTION <;> simp [referenceLines, hr]

theorem runSteps_exits (cfg : Config) (k : Nat) :
    runSteps cfg State.init (List.replicate k Step.exit) = State.init := by
  induction k with
  | zero => rfl
  | succ k ih =>
    simp only [runSteps, List.replicate_succ, List.foldl_cons, Step.run] at ih ⊢
    rw [processExit_idle cfg State.init rfl]
    exact ih

/-- C2 (idempotent init): in every environment and for every continuation of
the run (hook calls and process exit in any order), the numbers of marker
probes, sink opens, Reference Marker writes and `atexit` registrations in the
whole run are those of the first hook call alone, each is at most one, and
nothing at all happens before the first hook call. -/
theorem C2_init_at_most_once (cfg : Config) (c : Call) (ss : List Step) (k : Nat) :
    initCounts (runSteps cfg State.init (.call c :: ss)).log
        = initCounts (c.run cfg State.init).log
    ∧ countStat (c.run cfg State.init).log = 1
    ∧ countFopen (c.run cfg State.init).log ≤ 1
    ∧ countReference (c.run cfg State.init).log ≤ 1
    ∧ countAtexit (c.run cfg State.init).log ≤ 1
    ∧ (runSteps cfg State.init (List.replicate k Step.exit)).log = [] := by
  refine ⟨?_, ?_, ?_, ?_, ?_, by rw [runSteps_exits]; rfl⟩
  · cases h : c.env.markerPresent with
    | false => rw [run_absent cfg c ss h, first_absent cfg c h]
    | true =>
      cases ho : c.env.openSucceeds with
      | false => rw [run_openFails cfg c ss h ho, first_openFails cfg c h ho]
      | true =>
        rw [run_opens cfg c ss h ho, first_opens cfg c h ho]
        cases afterExit ss with
        | none =>
          simp only [tracingState]
          rw [initCounts_append _ _ (initCounts_steady cfg _ _),
            initCounts_append _ _ (initCounts_steady cfg _ _)]
        | some post =>
          simp only [tracingState, closedState]
          rw [initCounts_append _ _ (initCounts_steady cfg _ _),
            initCounts_append _ _ (initCounts_closeLog cfg),
            initCounts_append _ _ (initCounts_steady cfg _ _),
            initCounts_append _ _ (initCounts_steady cfg _ _)]
  all_goals
    cases h : c.env.markerPresent with
    | false =>
      rw [first_absent cfg c h]
      simp [absentState, countStat, countFopen, countAtexit, countReference, fprintfTexts]
    | true =>
      cases ho : c.env.openSucceeds with
      | false =>
        rw [first_openFails cfg c h ho]
        simp [failedState, failLog, countStat, countFopen, countAtexit, countReference,
          fprintfTexts]
      | true =>
        rw [first_opens cfg c h ho]
        have h1 := initCounts_append (initLog cfg) (steadyLog cfg .live [c])
          (initCounts_steady cfg _ _)
        rw [initCounts_initLog] at h1
        simp only [initCounts, Prod.mk.injEq] at h1
        have := referenceLines_length_le cfg
        simp only [tracingState]
        omega

/-- Hook calls alone, sink opened at the first call. -/
theorem runCalls_opens (cfg : Config) (c : Call) (cs : List Call)
    (h : c.env.markerPresent = true) (ho : c.env.openSucceeds = true) :
    runCalls cfg State.init (c :: cs) = tracingState cfg (c :: cs) := by
  have := runCalls_tracing cfg cs [c]
  simp only [runCalls, List.foldl_cons] at this ⊢
  rw [first_opens cfg c h ho, this]
  simp

/-- The hooks discard `call_site`. -/
theorem runCalls_call_site (cfg : Config) (site : Call → Nat) (cs : List Call) :
    ∀ s, runCalls cfg s (cs.map fun k => { k with call_site := site k }) = runCalls cfg s cs := by
  induction cs with
  | nil => intro s; rfl
  | cons c cs ih =>
    intro s
    have hc : Call.run cfg s { c with call_site := site c } = Call.run cfg s c := by
      simp [Call.run_eq]
    have := ih (c.run cfg s)
    simp only [runCalls, List.map_cons, List.foldl_cons] at this ⊢
    rw [hc, this]

/-- Lines handed to the sink by hook calls once the sink is open. -/
theorem sinkLines_opened (cfg : Config) (c : Call) (cs : List Call)
    (h : c.env.markerPresent = true) (ho : c.env.openSucceeds = true) :
    sinkLines (runCalls cfg State.init (c :: cs)).log
      = referenceLines cfg ++ (c :: cs).map (eventLine cfg) := by
  rw [runCalls_opens cfg c cs h ho]
  simp only [tracingState, sinkLines_append, sinkLines_initLog, sinkLines_steady_live]

/-- C3 (event records): when the marker is present and the sink opens at the
first hook call, the lines handed to the sink by a sequence of hook calls are
the Reference Marker (if one is configured) followed by exactly one line per
call, in call order, the line of a call being `enter <this_fn>` or
`exit <this_fn>` according to the hook; replacing every `call_site` by any
other value leaves the whole outcome unchanged. -/
theorem C3_one_line_per_call (cfg : Config) (c : Call) (cs : List Call) (site : Call → Nat)
    (h : c.env.markerPresent = true) (ho : c.env.openSucceeds = true) :
    sinkLines (runCalls cfg State.init (c :: cs)).log
        = referenceLines cfg ++ (c :: cs).map (eventLine cfg)
    ∧ (sinkLines (runCalls cfg State.init (c :: cs)).log).length
        = (referenceLines cfg).length + (c :: cs).length
    ∧ runCalls cfg State.init ((c :: cs).map fun k => { k with call_site := site k })
        = runCalls cfg State.init (c :: cs) := by
  have hl := sinkLines_opened cfg c cs h ho
  refine ⟨hl, ?_, runCalls_call_site cfg site (c :: cs) State.init⟩
  rw [hl]
  simp

/-- Witness for C3 (Scenario B): `f` calls `g`, no reference function. -/
theorem C3_one_line_per_call_witness :
    (enterF envOk).env.markerPresent = true ∧ (enterF envOk).env.openSucceeds = true
    ∧ sinkLines (runCalls demoCfg State.init
        [enterF envOk, enterG envAbsent, exitG envDenied, exitF envOk]).log
      = ["enter 0x401136\n", "enter 0x401156\n", "exit 0x401156\n", "exit 0x401136\n"] :=
  ⟨rfl, rfl, (C3_one_line_per_call demoCfg (enterF envOk)
    [enterG envAbsent, exitG envDenied, exitF envOk] (fun _ => 0) rfl rfl).1.trans (by decide)⟩

theorem streamMisuse_closeLog (cfg : Config) : streamMisuse (closeLog cfg) = [] := by
  simp [closeLog, streamMisuse]

theorem sinkLines_closeLog (cfg : Config) : sinkLines (closeLog cfg) = [exitLine cfg] := by
  simp [closeLog, sinkLines]

theorem exitLine_not_mem_referenceLines (cfg : Config) : exitLine cfg ∉ referenceLines cfg := by
  intro hm
  have := isReferenceLine_referenceLines cfg _ hm
  rw [isReferenceLine_exitLine] at this
  exact Bool.noConfusion this

theorem exitLine_not_mem_events (cfg : Config) (cs : List Call) :
    exitLine cfg ∉ cs.map (eventLine cfg) := by
  intro hm
  obtain ⟨c, _, hc⟩ := List.mem_map.mp hm
  exact exitLine_ne_eventLine cfg c hc.symm

/-- Supporting fact for C4: when process exit comes after the last hook call,
the sink receives the Reference Marker (if configured), one line per call and
then `EXIT <pid>` as its last line, that line occurs exactly once, every
line has reached the file, and no stream is misused. -/
theorem finaliser_after_last_call (cfg : Config) (c : Call) (cs : List Call)
    (h : c.env.markerPresent = true) (ho : c.env.openSucceeds = true) :
    sinkLines (processExit cfg (runCalls cfg State.init (c :: cs))).log
        = referenceLines cfg ++ (c :: cs).map (eventLine cfg) ++ [exitLine cfg]
    ∧ (sinkLines (processExit cfg (runCalls cfg State.init (c :: cs))).log).count (exitLine cfg)
        = 1
    ∧ streamMisuse (processExit cfg (runCalls cfg State.init (c :: cs))).log = [] := by
  rw [runCalls_opens cfg c cs h ho, processExit_tracing]
  have hl : sinkLines (closedState cfg (c :: cs) []).log
      = referenceLines cfg ++ (c :: cs).map (eventLine cfg) ++ [exitLine cfg] := by
    simp only [closedState, sinkLines_append, sinkLines_initLog, sinkLines_steady_live,
      sinkLines_closeLog, sinkLines_steady_stale, List.append_nil]
  refine ⟨hl, ?_, ?_⟩
  · rw [hl, List.count_append, List.count_append,
      List.count_eq_zero_of_not_mem (exitLine_not_mem_referenceLines cfg),
      List.count_eq_zero_of_not_mem (exitLine_not_mem_events cfg (c :: cs))]
    simp
  · have hn : streamMisuse (steadyLog cfg .stale []) = [] := rfl
    simp only [closedState, streamMisuse_append, streamMisuse_initLog,
      streamMisuse_steady_live, streamMisuse_closeLog, hn, List.append_nil]

/-- C4 at the failing input: `f` is entered and left, the process exits
(the finaliser writes `EXIT 42` and closes the sink), then a destructor `g`
is entered and left.  `active` is still 1, so both hook calls pass the
closed stream to `fprintf` and `fflush`: the last record the code writes is
`exit 0x401156`, not the `EXIT` record, and two records follow `EXIT 42`. -/
theorem C4_records_after_finaliser :
    (runSteps demoCfg State.init
        [.call (enterF envOk), .call (exitF envOk), .exit,
         .call (enterG envOk), .call (exitG envOk)]).log
      = [.stat "TRACE" 0, .fopen "TRACE" "a" .live, .atexit,
         .fprintf .live "enter 0x401136\n", .fflush .live,
         .fprintf .live "exit 0x401136\n", .fflush .live,
         .getpid, .fprintf .live "EXIT 42\n", .fclose .live,
         .fprintf .stale "enter 0x401156\n", .fflush .stale,
         .fprintf .stale "exit 0x401156\n", .fflush .stale]
    ∧ (runSteps demoCfg State.init
        [.call (enterF envOk), .call (exitF envOk), .exit,
         .call (enterG envOk), .call (exitG envOk)]).active = 1
    ∧ (fprintfTexts (runSteps demoCfg State.init
        [.call (enterF envOk), .call (exitF envOk), .exit,
         .call (enterG envOk), .call (exitG envOk)]).log).getLast?
          = some "exit 0x401156\n"
    ∧ (fprintfTexts (runSteps demoCfg State.init
        [.call (enterF envOk), .call (exitF envOk), .exit,
         .call (enterG envOk), .call (exitG envOk)]).log).getLast?
          ≠ some (exitLine demoCfg) := by
  decide

/-- C5 (open failure): when the marker is present but `fopen` fails at the
first hook call, that call leaves the tracer Inactive; over the whole run
(any later hook calls and process exit) standard error holds exactly one
diagnostic, the one `perror` of the first call; no `fprintf` is ever made and
the sink stays empty; `atexit` is never called and no finaliser is pending;
and no stream operation is applied to a null or closed stream, so every hook
returns normally. -/
theorem C5_open_failure (cfg : Config) (c : Call) (ss : List Step)
    (h : c.env.markerPresent = true) (ho : c.env.openSucceeds = false) :
    (c.run cfg State.init).activation = .Inactive
    ∧ (runSteps cfg State.init (.call c :: ss)).activation = .Inactive
    ∧ stderrLines (runSteps cfg State.init (.call c :: ss)).log
        = [perrorText c.env.errText c.env.errText]
    ∧ stderrLines (runSteps cfg State.init (.call c :: ss)).log
        = stderrLines (c.run cfg State.init).log
    ∧ fprintfTexts (runSteps cfg State.init (.call c :: ss)).log = []
    ∧ sinkOf (runSteps cfg State.init (.call c :: ss)).log = { flushed := [], pending := [] }
    ∧ countAtexit (runSteps cfg State.init (.call c :: ss)).log = 0
    ∧ (runSteps cfg State.init (.call c :: ss)).atexitList = 0
    ∧ streamMisuse (runSteps cfg State.init (.call c :: ss)).log = [] := by
  rw [run_openFails cfg c ss h ho, first_openFails cfg c h ho]
  simp [failedState, failLog, State.activation, stderrLines, fprintfTexts, sinkOf, Sink.step,
    countAtexit, streamMisuse]

/-- Witness for C5 (Scenario D): `f` calls `g`, then the process exits, with
`TRACE` present but not writable. -/
theorem C5_open_failure_witness :
    (enterF envDenied).env.markerPresent = true
    ∧ (enterF envDenied).env.openSucceeds = false
    ∧ stderrLines (runSteps demoCfg State.init
        [.call (enterF envDenied), .call (enterG envDenied), .call (exitG envDenied),
         .call (exitF envDenied), .exit]).log
      = ["Permission denied: Permission denied\n"] :=
  ⟨rfl, rfl, (C5_open_failure demoCfg (enterF envDenied)
    [.call (enterG envDenied), .call (exitG envDenied), .call (exitF envDenied), .exit]
    rfl rfl).2.2.1.trans (by decide)⟩

theorem runCalls_absent (cfg : Config) (c : Call) (cs : List Call)
    (h : c.env.markerPresent = false) :
    runCalls cfg State.init (c :: cs) = absentState := by
  rw [← runSteps_calls]
  exact run_absent cfg c (cs.map Step.call) h

theorem runCalls_openFails (cfg : Config) (c : Call) (cs : List Call)
    (h : c.env.markerPresent = true) (ho : c.env.openSucceeds = false) :
    runCalls cfg State.init (c :: cs) = failedState c.env := by
  rw [← runSteps_calls]
  exact run_openFails cfg c (cs.map Step.call) h ho

/-- C6 as stated fails: the same two hook calls put nothing on standard
output when `TRACE` is absent, but put the line `[gnu_ptrace error]` there
when `TRACE` is present and cannot be opened. -/
theorem C6_stdout_differs :
    stdoutLines (runCalls demoCfg State.init
        ([enterF envOk, exitF envOk].map (Call.inEnv envAbsent))).log = []
    ∧ stdoutLines (runCalls demoCfg State.init
        ([enterF envOk, exitF envOk].map (Call.inEnv envDenied))).log = ["[gnu_ptrace error]\n"]
    ∧ stdoutLines (runCalls demoCfg State.init
        ([enterF envOk, exitF envOk].map (Call.inEnv envAbsent))).log
      ≠ stdoutLines (runCalls demoCfg State.init
        ([enterF envOk, exitF envOk].map (Call.inEnv envDenied))).log := by
  decide

/-- C6 amended (transparency): take any sequence of hook calls and run it
once with the marker absent (`eA`) and once with the marker present (`eB`).
In both runs no stream operation is applied to a null or closed stream, so
every hook returns normally.  The marker-absent run writes nothing to
standard output.  The marker-present run writes nothing to standard
output when the open succeeds, and when the open fails it writes exactly the
one line `[gnu_ptrace error]`, during the first hook call. -/
theorem C6_transparency_amended (cfg : Config) (c : Call) (cs : List Call) (eA eB : Env)
    (hA : eA.markerPresent = false) (hB : eB.markerPresent = true) :
    streamMisuse (runCalls cfg State.init ((c :: cs).map (Call.inEnv eA))).log = []
    ∧ streamMisuse (runCalls cfg State.init ((c :: cs).map (Call.inEnv eB))).log = []
    ∧ stdoutLines (runCalls cfg State.init ((c :: cs).map (Call.inEnv eA))).log = []
    ∧ stdoutLines (runCalls cfg State.init ((c :: cs).map (Call.inEnv eB))).log
        = (if eB.openSucceeds then [] else ["[gnu_ptrace error]\n"])
    ∧ stdoutLines (runCalls cfg State.init ((c :: cs).map (Call.inEnv eB))).log
        = stdoutLines ((c.inEnv eB).run cfg State.init).log := by
  simp only [List.map_cons]
  rw [runCalls_absent cfg (c.inEnv eA) _ hA]
  cases ho : eB.openSucceeds with
  | false =>
    rw [runCalls_openFails cfg (c.inEnv eB) _ hB ho, first_openFails cfg (c.inEnv eB) hB ho]
    simp [absentState, failedState, failLog, streamMisuse, stdoutLines]
  | true =>
    rw [runCalls_opens cfg (c.inEnv eB) _ hB ho, first_opens cfg (c.inEnv eB) hB ho]
    simp [absentState, tracingState, streamMisuse_append, streamMisuse_initLog,
      streamMisuse_steady_live, stdoutLines_append, stdoutLines_initLog, stdoutLines_steady]
    simp [streamMisuse, stdoutLines]

/-- Witness for C6 amended: `f` entered and left, `TRACE` absent against
`TRACE` present but not writable. -/
theorem C6_transparency_amended_witness :
    envAbsent.markerPresent = false ∧ envDenied.markerPresent = true
    ∧ stdoutLines (runCalls demoCfg State.init
        ([enterF envOk, exitF envOk].map (Call.inEnv envDenied))).log
      = ["[gnu_ptrace error]\n"] :=
  ⟨rfl, rfl, (C6_transparency_amended demoCfg (enterF envOk) [exitF envOk]
    envAbsent envDenied rfl rfl).2.2.2.1⟩

theorem runCalls_steady (cfg : Config) (cs : List Call) :
    ∀ s : State, s.active ≠ 0 → s.first = 0 →
      runCalls cfg s cs = s.emit (steadyLog cfg s.TRACE cs) := by
  induction cs with
  | nil => intro s _ _; simp [runCalls, steadyLog, State.emit]
  | cons c cs ih =>
    intro s ha hf
    simp only [runCalls, List.foldl_cons] at ih ⊢
    rw [Call.run_steady cfg s c ha hf, ih _ (by simpa [State.emit] using ha)
      (by simpa [State.emit] using hf)]
    simp [State.emit, steadyLog]

/-- The value `gnu_ptrace_init` returns is 0 or 1. -/
theorem gnu_ptrace_init_result (cfg : Config) (env : Env) (s : State) :
    (gnu_ptrace_init cfg env s).1 = 0 ∨ (gnu_ptrace_init cfg env s).1 = 1 := by
  cases h : env.markerPresent <;> cases ho : env.openSucceeds <;>
    simp [gnu_ptrace_init, h, ho]

/-- One call from an Unprobed state decides the activation state. -/
theorem Call.run_unprobed (cfg : Config) (s : State) (c : Call)
    (ha : s.active ≠ 0) (hf : s.first ≠ 0) :
    (c.run cfg s).first = 0 ∧ ((c.run cfg s).active = 0 ∨ (c.run cfg s).active = 1) := by
  rw [Call.run_eq]
  unfold gnu_ptrace
  rw [if_neg ha, if_pos hf]
  simp only
  split
  · rename_i h0
    exact ⟨rfl, Or.inl h0⟩
  · rename_i h0
    refine ⟨rfl, Or.inr ?_⟩
    simp only [writeEvent, State.emit] at h0 ⊢
    rcases gnu_ptrace_init_result cfg c.env s with h1 | h1
    · exact absurd h1 h0
    · exact h1

/-- C7 (terminal activation state): with the activation state read off the
statics (Inactive: `active = 0`; Unprobed: `first` set; Active: otherwise),
any sequence of hook calls from an Inactive state leaves the whole state
unchanged (still Inactive, no probe, no libc call at all); from an Active
state it ends in an Active state without any further probe, open, Reference
Marker or registration; and from an Unprobed state the first call already
leaves Unprobed for good. -/
theorem C7_activation_terminal (cfg : Config) (s : State) (cs : List Call) :
    match s.activation with
    | .Inactive => runCalls cfg s cs = s
    | .Active =>
        (runCalls cfg s cs).activation = .Active
        ∧ initCounts (runCalls cfg s cs).log = initCounts s.log
    | .Unprobed =>
        ∀ c : Call, (c.run cfg s).activation ≠ .Unprobed
          ∧ (runCalls cfg s (c :: cs)).activation = (c.run cfg s).activation := by
  by_cases ha : s.active = 0
  · simp only [State.activation, ha, if_true]
    exact runCalls_inactive cfg s cs ha
  · by_cases hf : s.first = 0
    · simp only [State.activation, ha, hf, if_false, ne_eq, not_true_eq_false]
      rw [runCalls_steady cfg cs s ha hf]
      refine ⟨?_, initCounts_append _ _ (initCounts_steady cfg _ _)⟩
      simp [State.emit, State.activation, ha, hf]
    · simp only [State.activation, ha, hf, if_false, ne_eq, not_false_eq_true, if_true]
      intro c
      obtain ⟨h1, h2⟩ := Call.run_unprobed cfg s c ha hf
      have hrun : runCalls cfg s (c :: cs) = runCalls cfg (c.run cfg s) cs := rfl
      rcases h2 with h2 | h2
      · refine ⟨by simp [h2], ?_⟩
        rw [hrun, runCalls_inactive cfg _ cs h2]
      · have h3 : (c.run cfg s).active ≠ 0 := by rw [h2]; decide
        refine ⟨by simp [h1, h2], ?_⟩
        rw [hrun, runCalls_steady cfg cs _ h3 h1]
        simp [State.emit, h1, h2]

/-- Log of any run whose first call opened the sink: the initialisation
entries, then entries that contain no part of the initialisation. -/
theorem opened_log (cfg : Config) (c : Call) (ss : List Step)
    (h : c.env.markerPresent = true) (ho : c.env.openSucceeds = true) :
    ∃ rest, (runSteps cfg State.init (.call c :: ss)).log = initLog cfg ++ rest
      ∧ initCounts rest = (0, 0, 0, 0) := by
  rw [run_opens cfg c ss h ho]
  cases afterExit ss with
  | none => exact ⟨_, rfl, initCounts_steady cfg _ _⟩
  | some post =>
    refine ⟨steadyLog cfg .live (c :: beforeExit ss) ++ closeLog cfg ++ steadyLog cfg .stale post,
      by simp [closedState], ?_⟩
    rw [initCounts_append _ _ (initCounts_steady cfg _ _),
      initCounts_append _ _ (initCounts_closeLog cfg), initCounts_steady]

/-- C8 (Reference Marker): with a reference function configured, the marker
present and the open succeeding at the first hook call, then whatever hook
calls and process exit follow, the first text ever passed to `fprintf`, and
the first line of the sink, is `REFERENCE: <name> <addr>`, and exactly one
line beginning with `REFERENCE:` is written in the whole run.  With no
reference function configured, no line beginning with `REFERENCE:` is ever
passed to `fprintf`, in any environment. -/
theorem C8_reference_marker (cfg : Config) (c : Call) (ss : List Step) :
    (∀ name addr, cfg.PTRACE_REFERENCE_FUNCTION = some (name, addr) →
      c.env.markerPresent = true → c.env.openSucceeds = true →
        (fprintfTexts (runSteps cfg State.init (.call c :: ss)).log).head?
            = some ("REFERENCE: " ++ name ++ " " ++ cfg.fmtPtr addr ++ "\n")
        ∧ (sinkLines (runSteps cfg State.init (.call c :: ss)).log).head?
            = some ("REFERENCE: " ++ name ++ " " ++ cfg.fmtPtr addr ++ "\n")
        ∧ countReference (runSteps cfg State.init (.call c :: ss)).log = 1)
    ∧ (cfg.PTRACE_REFERENCE_FUNCTION = none →
        countReference (runSteps cfg State.init (.call c :: ss)).log = 0
        ∧ ∀ t ∈ fprintfTexts (runSteps cfg State.init (.call c :: ss)).log,
            isReferenceLine t = false) := by
  constructor
  · intro name addr hr h ho
    obtain ⟨rest, hlog, hrest⟩ := opened_log cfg c ss h ho
    have hc := initCounts_append (initLog cfg) rest hrest
    rw [initCounts_initLog] at hc
    simp only [initCounts, Prod.mk.injEq] at hc
    rw [hlog]
    refine ⟨?_, ?_, ?_⟩
    · simp [fprintfTexts_append, fprintfTexts_initLog, referenceLines, hr]
    · simp [sinkLines_append, sinkLines_initLog, referenceLines, hr]
    · rw [hc.2.2.1]; simp [referenceLines, hr]
  · intro hr
    have h0 : countReference (runSteps cfg State.init (.call c :: ss)).log = 0 := by
      cases h : c.env.markerPresent with
      | false =>
        rw [run_absent cfg c ss h]
        simp [absentState, countReference, fprintfTexts]
      | true =>
        cases ho : c.env.openSucceeds with
        | false =>
          rw [run_openFails cfg c ss h ho]
          simp [failedState, failLog, countReference, fprintfTexts]
        | true =>
          obtain ⟨rest, hlog, hrest⟩ := opened_log cfg c ss h ho
          have hc := initCounts_append (initLog cfg) rest hrest
          rw [initCounts_initLog] at hc
          simp only [initCounts, Prod.mk.injEq] at hc
          rw [hlog, hc.2.2.1]
          simp [referenceLines, hr]
    refine ⟨h0, ?_⟩
    intro t ht
    simp only [countReference, List.countP_eq_zero] at h0
    simpa using h0 t ht

/-- Witness for C8 (Scenario C): reference function `main` configured, `f`
calls `g`, then the process exits; and the same run without a reference
function. -/
theorem C8_reference_marker_witness :
    sinkLines (runSteps demoCfgRef State.init
        [.call (enterF envOk), .call (enterG envOk), .call (exitG envOk),
         .call (exitF envOk), .exit]).log
      = ["REFERENCE: main 0x401106\n", "enter 0x401136\n", "enter 0x401156\n",
         "exit 0x401156\n", "exit 0x401136\n", "EXIT 42\n"]
    ∧ countReference (runSteps demoCfgRef State.init
        [.call (enterF envOk), .call (enterG envOk), .call (exitG envOk),
         .call (exitF envOk), .exit]).log = 1
    ∧ countReference (runSteps demoCfg State.init
        [.call (enterF envOk), .call (enterG envOk), .call (exitG envOk),
         .call (exitF envOk), .exit]).log = 0 :=
  ⟨by decide,
   ((C8_reference_marker demoCfgRef (enterF envOk)
      [.call (enterG envOk), .call (exitG envOk), .call (exitF envOk), .exit]).1
      "main" 0x401106 rfl rfl rfl).2.2,
   ((C8_reference_marker demoCfg (enterF envOk)
      [.call (enterG envOk), .call (exitG envOk), .call (exitF envOk), .exit]).2 rfl).1⟩

/-- Every state a process can reach has one of five shapes. -/
theorem reach_cases (cfg : Config) (ss : List Step) :
    runSteps cfg State.init ss = State.init
    ∨ runSteps cfg State.init ss = absentState
    ∨ (∃ e, runSteps cfg State.init ss = failedState e)
    ∨ (∃ pre, runSteps cfg State.init ss = tracingState cfg pre)
    ∨ (∃ pre post, runSteps cfg State.init ss = closedState cfg pre post) := by
  induction ss with
  | nil => exact Or.inl rfl
  | cons x ss ih =>
    cases x with
    | exit =>
      have : runSteps cfg State.init (Step.exit :: ss) = runSteps cfg State.init ss := by
        simp only [runSteps, List.foldl_cons, Step.run]
        rw [processExit_idle cfg State.init rfl]
      rw [this]
      exact ih
    | call c =>
      cases h : c.env.markerPresent with
      | false => exact Or.inr (Or.inl (run_absent cfg c ss h))
      | true =>
        cases ho : c.env.openSucceeds with
        | false => exact Or.inr (Or.inr (Or.inl ⟨_, run_openFails cfg c ss h ho⟩))
        | true =>
          rw [run_opens cfg c ss h ho]
          cases afterExit ss with
          | none => exact Or.inr (Or.inr (Or.inr (Or.inl ⟨_, rfl⟩)))
          | some post => exact Or.inr (Or.inr (Or.inr (Or.inr ⟨_, _, rfl⟩)))

theorem mem_steadyLog (cfg : Config) (f : FilePtr) (cs : List Call) (e : Effect)
    (he : e ∈ steadyLog cfg f cs) : (∃ t, e = .fprintf f t) ∨ e = .fflush f := by
  induction cs with
  | nil => simp [steadyLog] at he
  | cons c cs ih =>
    simp only [steadyLog, List.mem_cons] at he
    rcases he with he | he | he
    · exact Or.inl ⟨_, he⟩
    · exact Or.inr he
    · exact ih he

theorem mem_initLog (cfg : Config) (e : Effect) (he : e ∈ initLog cfg) :
    e = .stat "TRACE" 0 ∨ e = .fopen "TRACE" "a" .live ∨ (∃ t, e = .fprintf .live t)
      ∨ e = .atexit := by
  simp only [initLog, List.mem_append, List.mem_cons, List.mem_singleton, List.mem_map,
    List.not_mem_nil, or_false] at he
  rcases he with (he | he) | he
  · rcases he with he | he
    · exact Or.inl he
    · exact Or.inr (Or.inl he)
  · obtain ⟨t, _, rfl⟩ := he
    exact Or.inr (Or.inr (Or.inl ⟨t, rfl⟩))
  · exact Or.inr (Or.inr (Or.inr he))

theorem fopen_mem_initLog (cfg : Config) : Effect.fopen "TRACE" "a" .live ∈ initLog cfg := by
  simp [initLog]

/-- C9 (shutdown without a sink): in every state a process can reach by hook
calls and process exit in any order, (1) if a finaliser is pending then
`TRACE` points to an open stream, so it is not null; (2) if no `fopen` ever
returned a stream (no hook was called, the marker was absent, or the open
failed) then `atexit` was never called, no finaliser is pending, and process
exit changes nothing: no `EXIT` record, no stream touched; (3) no `fprintf`,
in particular not the unguarded one of `gnu_ptrace_close`, has ever been given
a null pointer. -/
theorem C9_shutdown_noop (cfg : Config) (ss : List Step) :
    ((runSteps cfg State.init ss).atexitList ≠ 0 → (runSteps cfg State.init ss).TRACE = .live)
    ∧ ((∀ e ∈ (runSteps cfg State.init ss).log, e ≠ .fopen PTRACE_PIPENAME "a" .live) →
        countAtexit (runSteps cfg State.init ss).log = 0
        ∧ (runSteps cfg State.init ss).atexitList = 0
        ∧ processExit cfg (runSteps cfg State.init ss) = runSteps cfg State.init ss)
    ∧ (∀ t, Effect.fprintf .NULL t ∉ (runSteps cfg State.init ss).log) := by
  rcases reach_cases cfg ss with h | h | ⟨e, h⟩ | ⟨pre, h⟩ | ⟨pre, post, h⟩ <;> rw [h]
  · refine ⟨by simp [State.init], fun _ => ⟨rfl, rfl, processExit_idle cfg _ rfl⟩, ?_⟩
    simp [State.init]
  · refine ⟨by simp [absentState], fun _ => ⟨rfl, rfl, processExit_idle cfg _ rfl⟩, ?_⟩
    simp [absentState]
  · refine ⟨by simp [failedState], fun _ => ⟨rfl, rfl, processExit_idle cfg _ rfl⟩, ?_⟩
    simp [failedState, failLog]
  · refine ⟨fun _ => rfl, fun hn => ?_, ?_⟩
    · exact absurd rfl (hn _ (by
        simp only [tracingState, List.mem_append]; exact Or.inl (fopen_mem_initLog cfg)))
    · intro t ht
      simp only [tracingState, List.mem_append] at ht
      rcases ht with ht | ht
      · rcases mem_initLog cfg _ ht with h1 | h1 | ⟨_, h1⟩ | h1 <;> simp at h1
      · rcases mem_steadyLog cfg _ _ _ ht with ⟨_, h1⟩ | h1 <;> simp at h1
  · refine ⟨by simp [closedState], fun hn => ?_, ?_⟩
    · exact absurd rfl (hn _ (by
        simp only [closedState, List.mem_append]
        exact Or.inl (Or.inl (Or.inl (fopen_mem_initLog cfg)))))
    · intro t ht
      simp only [closedState, List.mem_append] at ht
      rcases ht with ((ht | ht) | ht) | ht
      · rcases mem_initLog cfg _ ht with h1 | h1 | ⟨_, h1⟩ | h1 <;> simp at h1
      · rcases mem_steadyLog cfg _ _ _ ht with ⟨_, h1⟩ | h1 <;> simp at h1
      · simp [closeLog] at ht
      · rcases mem_steadyLog cfg _ _ _ ht with ⟨_, h1⟩ | h1 <;> simp at h1

/-- Witness for C9: process exit after a run in which the open failed, and
process exit with no hook call at all. -/
theorem C9_shutdown_noop_witness :
    processExit demoCfg (runSteps demoCfg State.init
        [.call (enterF envDenied), .call (exitF envDenied)])
      = runSteps demoCfg State.init [.call (enterF envDenied), .call (exitF envDenied)]
    ∧ processExit demoCfg (runSteps demoCfg State.init []) = runSteps demoCfg State.init [] :=
  ⟨((C9_shutdown_noop demoCfg [.call (enterF envDenied), .call (exitF envDenied)]).2.1
      (by decide)).2.2,
   ((C9_shutdown_noop demoCfg []).2.1 (by decide)).2.2⟩

theorem sinkOf_initLog (cfg : Config) :
    sinkOf (initLog cfg) = { flushed := [], pending := referenceLines cfg } := by
  cases hr : cfg.PTRACE_REFERENCE_FUNCTION with
  | none => simp [sinkOf, initLog, referenceLines, hr, Sink.step]
  | some r => simp [sinkOf, initLog, referenceLines, hr, Sink.step]

theorem foldl_steady_live (cfg : Config) (cs : List Call) :
    ∀ (c : Call) (k : Sink), (steadyLog cfg .live (c :: cs)).foldl Sink.step k
      = { flushed := k.flushed ++ k.pending ++ (c :: cs).map (eventLine cfg), pending := [] } := by
  induction cs with
  | nil => intro c k; simp [steadyLog, Sink.step]
  | cons d cs ih =>
    intro c k
    have := ih d { flushed := k.flushed ++ (k.pending ++ [eventLine cfg c]), pending := [] }
    simp only [steadyLog, List.foldl_cons, Sink.step] at this ⊢
    rw [this]
    simp

/-- C10 (flush on every call): when the sink opens at the first hook call,
then after any number of hook calls have returned the stream buffer is empty
and the file already holds every line written so far: the Reference Marker
(if configured) and one event line per call, the current call included. -/
theorem C10_flushed_after_each_call (cfg : Config) (c : Call) (cs : List Call)
    (h : c.env.markerPresent = true) (ho : c.env.openSucceeds = true) :
    (sinkOf (runCalls cfg State.init (c :: cs)).log).pending = []
    ∧ (sinkOf (runCalls cfg State.init (c :: cs)).log).flushed
        = sinkLines (runCalls cfg State.init (c :: cs)).log
    ∧ (sinkOf (runCalls cfg State.init (c :: cs)).log).flushed
        = referenceLines cfg ++ (c :: cs).map (eventLine cfg) := by
  have hs : sinkOf (runCalls cfg State.init (c :: cs)).log
      = { flushed := referenceLines cfg ++ (c :: cs).map (eventLine cfg), pending := [] } := by
    rw [runCalls_opens cfg c cs h ho]
    simp only [tracingState]
    rw [sinkOf_append, sinkOf_initLog, foldl_steady_live]
    simp
  refine ⟨by rw [hs], ?_, by rw [hs]⟩
  rw [hs, sinkLines_opened cfg c cs h ho]

/-- Witness for C10: reference function configured, `f` entered, `g`
entered: three lines are in the file and none is buffered. -/
theorem C10_flushed_after_each_call_witness :
    (enterF envOk).env.markerPresent = true ∧ (enterF envOk).env.openSucceeds = true
    ∧ (sinkOf (runCalls demoCfgRef State.init [enterF envOk, enterG envOk]).log).pending = []
    ∧ (sinkOf (runCalls demoCfgRef State.init [enterF envOk, enterG envOk]).log).flushed
      = ["REFERENCE: main 0x401106\n", "enter 0x401136\n", "enter 0x401156\n"] :=
  ⟨rfl, rfl,
   (C10_flushed_after_each_call demoCfgRef (enterF envOk) [enterG envOk] rfl rfl).1,
   (C10_flushed_after_each_call demoCfgRef (enterF envOk) [enterG envOk] rfl rfl).2.2.trans
     (by decide)⟩

end Ptrace
